import Mathlib

/-
Verification development for the routing core of the
fasthttp-prometheus-middleware repository.

The router source (package `router`, vendored from fasthttp/router) is
embedded shallowly below.  The trie implementation (`tree.go`: `node`,
`addRoute`, `getValue`, `findCaseInsensitivePath`), the optional-path
expansion (`getOptionalPaths`) and the path cleaner (`cleanPath`) are not
part of the available source files; those definitions are modelled from
the specification (sections 4.1 and 4.2) and are marked as such in their
doc comments.  Everything else is translated directly from `router.go`.
-/

set_option maxRecDepth 4096

/-- A request handler.  Handlers are opaque to the router; we model one as
an identifier together with the abrupt-termination signal it raises when
invoked (`none` means it returns normally). -/
structure RequestHandler where
  id : Nat
  panics : Option Nat := none
deriving DecidableEq

/-- The run-time aborts Go distinguishes at registration time: indexing an
empty string out of bounds, and the explicit missing-leading-slash abort of
`Router.Handle`. -/
inductive GoPanic where
  | indexOutOfRange : GoPanic
  | pathMustBeginWithSlash (path : String) : GoPanic
deriving DecidableEq

/-- Modelled from the spec: `tree.go` is not among the source files, so a
per-method tree is represented extensionally as the insertion-ordered list
of (concrete pattern, handler) pairs that `addRoute` received. -/
abbrev RTree := List (String × RequestHandler)

/-- The configurable fields of `Router` (router.go lines 99-145).  The
failure handler is modelled by its presence only; an invocation of it is
recorded as data by the dispatch function. -/
structure RouterCfg where
  RedirectTrailingSlash : Bool
  RedirectFixedPath : Bool
  HandleMethodNotAllowed : Bool
  HandleOPTIONS : Bool
  NotFound : Option RequestHandler
  MethodNotAllowed : Option RequestHandler
  PanicHandler : Bool
deriving DecidableEq

/-- The non-recursive fields of `Router`. -/
structure RouterBase where
  beginPath : String
  trees : List (String × RTree)
  registeredPaths : List (String × List String)
  cfg : RouterCfg
deriving DecidableEq

/-- `Router` (router.go lines 93-146): the `parent` pointer makes the type
recursive, hence an inductive with a single constructor. -/
inductive Router where
  | mk (base : RouterBase) (parent : Option Router) : Router

def routerDecEq : (a b : Router) → Decidable (a = b)
  | .mk b1 p1, .mk b2 p2 =>
    match decEq b1 b2 with
    | isFalse h => isFalse (by intro he; cases he; exact h rfl)
    | isTrue h1 =>
      match p1, p2 with
      | none, none => isTrue (by rw [h1])
      | some q1, some q2 =>
        match routerDecEq q1 q2 with
        | isTrue h2 => isTrue (by rw [h1, h2])
        | isFalse h2 => isFalse (by
            intro he
            injection he with hb hp
            injection hp with hq
            exact h2 hq)
      | none, some q2 => isFalse (by
          intro he
          injection he with hb hp
          exact Option.noConfusion hp)
      | some q1, none => isFalse (by
          intro he
          injection he with hb hp
          exact Option.noConfusion hp)

instance : DecidableEq Router := routerDecEq

def Router.base : Router → RouterBase
  | .mk b _ => b

def Router.parentOf : Router → Option Router
  | .mk _ p => p

def Router.trees (r : Router) : List (String × RTree) := r.base.trees

def Router.registeredPaths (r : Router) : List (String × List String) :=
  r.base.registeredPaths

def Router.cfg (r : Router) : RouterCfg := r.base.cfg

/-- The default configuration installed by `New` (router.go lines 150-160). -/
def RouterCfg.default : RouterCfg :=
  { RedirectTrailingSlash := true
    RedirectFixedPath := true
    HandleMethodNotAllowed := true
    HandleOPTIONS := true
    NotFound := none
    MethodNotAllowed := none
    PanicHandler := false }

/-- `New` (router.go lines 150-160). -/
def Router.new : Router :=
  .mk { beginPath := "/", trees := [], registeredPaths := [], cfg := .default } none

/-- `Router.Group` (router.go lines 164-170): a fresh router whose parent is
`r` and whose `beginPath` is the group prefix. -/
def Router.Group (r : Router) (path : String) : Router :=
  .mk { beginPath := path, trees := [], registeredPaths := [], cfg := .default } (some r)

/-
Association-list operations standing in for Go maps.  Go map iteration
order is unspecified; the list order (insertion order) is one admissible
order, and all order-sensitive claims below are about membership, not
order.
-/

def alGet {α : Type} : List (String × α) → String → Option α
  | [], _ => none
  | (k, v) :: t, key => if k = key then some v else alGet t key

def alGetD {α : Type} (l : List (String × α)) (key : String) (d : α) : α :=
  (alGet l key).getD d

def alSet {α : Type} : List (String × α) → String → α → List (String × α)
  | [], key, v => [(key, v)]
  | (k, w) :: t, key, v => if k = key then (key, v) :: t else (k, w) :: alSet t key v

/-
String primitives.  The corresponding core-library functions are defined
by well-founded recursion on byte positions, which the kernel does not
reduce; these structurally recursive equivalents operate on the character
list underlying a `String` and agree with Go's byte-level operations on
the ASCII paths the router handles.
-/

/-- Splitting a character list at every separator character. -/
def splitCh (sep : Char) : List Char → List (List Char)
  | [] => [[]]
  | c :: cs =>
    if c = sep then [] :: splitCh sep cs
    else
      match splitCh sep cs with
      | g :: gs => (c :: g) :: gs
      | [] => [[c]]

/-- `strings.Split(s, "/")`: the path split at every separator. -/
def splitSlash (s : String) : List String :=
  (splitCh '/' s.data).map (fun cs => ⟨cs⟩)

/-- Joining segments back with the separator (inverse of `splitSlash`). -/
def joinSlash : List String → String
  | [] => ""
  | [s] => s
  | s :: t :: rest => s ++ "/" ++ joinSlash (t :: rest)

/-- Whether the first character of `s` is `c` (`s[0] == c` on a non-empty
Go string). -/
def firstIs (s : String) (c : Char) : Bool :=
  match s.data with
  | [] => false
  | d :: _ => d = c

/-- Whether the last character of `s` is `c` (`s[len(s)-1] == c` on a
non-empty Go string). -/
def lastIs (s : String) (c : Char) : Bool :=
  match s.data.getLast? with
  | some d => d = c
  | none => false

/-- `s[0]` on a Go string; the caller guards against the empty string. -/
def firstChar (s : String) : Char :=
  match s.data with
  | [] => 'A'
  | d :: _ => d

/-- `s[:len(s)-1]`: the string without its final character. -/
def dropLastChar (s : String) : String := ⟨s.data.dropLast⟩

/-- `strings.ToLower` restricted to ASCII. -/
def lowerStr (s : String) : String := ⟨s.data.map Char.toLower⟩

/-
Pattern matching (spec section 4.2).  Modelled from the spec: `tree.go` is
not among the source files.  A pattern and a path are compared segmentwise
after splitting on the separator: a `:name` segment matches any non-empty
path segment, a `*name` segment matches the whole remaining suffix, and
any other segment matches literally.
-/

/-- Modelled from the spec (section 4.2): segmentwise pattern match. -/
def matchSegs : List String → List String → Bool
  | [], [] => true
  | p :: ps, s :: ss =>
    if firstIs p '*' then true
    else if firstIs p ':' then s ≠ "" && matchSegs ps ss
    else p = s && matchSegs ps ss
  | _, _ => false

/-- Modelled from the spec (section 4.2): whether a registered pattern
matches a concrete path exactly. -/
def patternMatches (pattern path : String) : Bool :=
  matchSegs (splitSlash pattern) (splitSlash path)

/-- Modelled from the spec (section 4.2): `node.getValue`.  Returns the
handler of the first matching pattern, or, failing that, reports whether
toggling the trailing slash of `path` would match some registered pattern
(the trailing-slash-recoverable flag). -/
def getValue (t : RTree) (path : String) : Option RequestHandler × Bool :=
  match t.find? (fun e => patternMatches e.1 path) with
  | some e => (some e.2, false)
  | none =>
    let tsr :=
      if lastIs path '/' then
        t.any (fun e => patternMatches e.1 (dropLastChar path))
      else
        t.any (fun e => patternMatches e.1 (path ++ "/"))
    (none, tsr)

/-
Optional-segment expansion.  Modelled from the spec (section 4.1):
`getOptionalPaths` is not among the source files.  An optional trailing
segment is a named-parameter segment marked with a trailing question mark
(`:name?`).  Following the use site in `Router.Handle` (router.go lines
238-247), a pattern without optional segments yields the empty list and
the caller inserts the original pattern instead.
-/

/-- Modelled from the spec (section 4.1): a segment marked optional. -/
def isOptionalSeg (s : String) : Bool := firstIs s ':' && lastIs s '?'

/-- Number of trailing optional segments of a pattern. -/
def trailingOptionalCount (path : String) : Nat :=
  ((splitSlash path).reverse.takeWhile isOptionalSeg).length

/-- Strips the optional marker from a segment. -/
def stripMark (s : String) : String :=
  if isOptionalSeg s then dropLastChar s else s

/-- Modelled from the spec (section 4.1): for a pattern with `k ≥ 1`
trailing optional segments, the `k+1` concrete expansions ordered
most-specific first; for a pattern without optional segments, the empty
list (the source's `Handle` then inserts the original pattern). -/
def getOptionalPaths (path : String) : List String :=
  let segs := splitSlash path
  let k := trailingOptionalCount path
  if k = 0 then []
  else (List.range (k + 1)).map
    (fun i => joinSlash ((segs.take (segs.length - i)).map stripMark))

/-- `Router.Handle` (router.go lines 215-248).  Go mutates the router chain
in place and aborts by panicking; the translation returns the panic (if
any) together with the state of the chain after the call, so that partial
mutation before an abort is representable. -/
def Router.Handle : Router → String → String → RequestHandler → Option GoPanic × Router
  | .mk base parent, method, path, handle =>
    if path = "" then (some .indexOutOfRange, .mk base parent)
    else if firstChar path ≠ '/' then (some (.pathMustBeginWithSlash path), .mk base parent)
    else
      let path1 := if base.beginPath ≠ "/" then base.beginPath ++ path else path
      let base1 := { base with
        registeredPaths :=
          alSet base.registeredPaths method (alGetD base.registeredPaths method [] ++ [path1]) }
      match parent with
      | some p =>
        let res := Router.Handle p method path1 handle
        (res.1, .mk base1 (some res.2))
      | none =>
        let root := alGetD base1.trees method []
        let optionalPaths := getOptionalPaths path1
        let root1 :=
          if optionalPaths = [] then root ++ [(path1, handle)]
          else root ++ optionalPaths.map (fun p => (p, handle))
        (none, .mk { base1 with trees := alSet base1.trees method root1 } none)

/-
Path cleaning and case-insensitive recovery.  Modelled from the spec
(sections 4.1 and 4.2): `path.go` and `tree.go` are not among the source
files.
-/

/-- Modelled from the spec (section 4.1): `cleanPath`.  Collapses repeated
separators, resolves single and double dots lexically, and guarantees a
leading separator. -/
def cleanPath (p : String) : String :=
  let segs := (splitSlash p).filter (fun s => s != "" && s != ".")
  let stack := segs.foldl (fun st s => if s = ".." then st.dropLast else st ++ [s]) []
  let core := "/" ++ joinSlash stack
  if lastIs p '/' && stack != [] then core ++ "/" else core

/-- Modelled from the spec (section 4.2): case-insensitive segmentwise
match that rebuilds the canonically-cased path: static segments take the
pattern's case, parameter and catch-all segments keep the captured case. -/
def ciSegs : List String → List String → Option (List String)
  | [], [] => some []
  | p :: ps, s :: ss =>
    if firstIs p '*' then some (s :: ss)
    else if firstIs p ':' then
      if s ≠ "" then (ciSegs ps ss).map (fun rest => s :: rest) else none
    else if lowerStr p = lowerStr s then (ciSegs ps ss).map (fun rest => p :: rest)
    else none
  | _, _ => none

/-- One case-insensitive probe of every registered pattern. -/
def ciFixOne (t : RTree) (path : String) : Option String :=
  t.findSome? (fun e =>
    (ciSegs (splitSlash e.1) (splitSlash path)).map joinSlash)

/-- Modelled from the spec (section 4.2): `node.findCaseInsensitivePath`.
Tries the cleaned path as given; if that fails and `fixTrailingSlash` is
set, tries the path with its trailing slash toggled. -/
def findCaseInsensitivePath (t : RTree) (path : String) (fixTrailingSlash : Bool) :
    Option String :=
  match ciFixOne t path with
  | some f => some f
  | none =>
    if fixTrailingSlash then
      if path ≠ "/" ∧ lastIs path '/' then ciFixOne t (dropLastChar path)
      else ciFixOne t (path ++ "/")
    else none

/-
The allowed-methods computation, `Router.allowed` (router.go lines
428-464), translated as a fold over the method map in iteration order.
-/

/-- The accumulation step shared by both loops of `allowed` (router.go
lines 436-440 and 451-456): start the list or append with a comma. -/
def joinStep (allow m : String) : String :=
  if allow = "" then m else allow ++ ", " ++ m

/-- One step of the specific-path loop of `allowed` (router.go lines
443-458): skip the request method and OPTIONS, probe the method's tree,
and append the method on a hit. -/
def allowedStep (reqMethod path : String) (allow : String) (e : String × RTree) : String :=
  if e.1 = reqMethod ∨ e.1 = "OPTIONS" then allow
  else if (getValue e.2 path).1.isSome then joinStep allow e.1
  else allow

/-- One step of the server-wide loop of `allowed` (router.go lines
430-441): skip OPTIONS, append every other method unconditionally. -/
def allowedWildStep (allow : String) (e : String × RTree) : String :=
  if e.1 = "OPTIONS" then allow
  else joinStep allow e.1

/-- `Router.allowed` (router.go lines 428-464). -/
def Router.allowed (r : Router) (path reqMethod : String) : String :=
  let collected :=
    if path = "*" ∨ path = "/*" then r.base.trees.foldl allowedWildStep ""
    else r.base.trees.foldl (allowedStep reqMethod path) ""
  if collected ≠ "" then collected ++ ", OPTIONS" else collected

/-
Dispatch, `Router.Handler` (router.go lines 316-409).
-/

/-- An inbound request as the router sees it: method, path and query
string. -/
structure Request where
  method : String
  path : String
  query : String
deriving DecidableEq

/-- The six-way decision `Router.Handler` takes for a request.  `invoked`
records the matched handler that was called; `methodNotAllowed` and
`notFound` record the configured override handler, if any, that was
delegated to. -/
inductive Outcome where
  | invoked (h : RequestHandler)
  | redirect (location : String) (code : Nat)
  | optionsReply (allow : String)
  | methodNotAllowed (allow : String) (custom : Option RequestHandler)
  | notFound (custom : Option RequestHandler)
deriving DecidableEq

/-- Whether an outcome is one of the two redirect cases. -/
def isRedirect : Outcome → Bool
  | .redirect _ _ => true
  | _ => false

/-- The status code the router itself synthesizes for an outcome, when it
does not delegate to a handler (router.go lines 351, 371, 394, 407). -/
def synthesizedStatus : Outcome → Option Nat
  | .redirect _ code => some code
  | .methodNotAllowed _ none => some 405
  | .notFound none => some 404
  | _ => none

/-- The query-string suffix appended to both redirect targets (router.go
lines 346-349 and 366-370). -/
def querySuffix (q : String) : String :=
  if q ≠ "" then "?" ++ q else ""

/-- The trailing-slash redirect target (router.go lines 339-344). -/
def tsrTarget (path : String) : String :=
  if path.length > 1 ∧ lastIs path '/' then dropLastChar path else path ++ "/"

/-- The not-found tail of `Router.Handler` (router.go lines 403-408). -/
def notFoundOutcome (r : Router) : Outcome := .notFound r.base.cfg.NotFound

/-- The fallback section of `Router.Handler` (router.go lines 378-408):
OPTIONS auto-reply, 405, then 404. -/
def fallbackOutcome (r : Router) (req : Request) : Outcome :=
  if req.method = "OPTIONS" then
    if r.base.cfg.HandleOPTIONS then
      (if Router.allowed r req.path req.method ≠ "" then
        .optionsReply (Router.allowed r req.path req.method)
      else notFoundOutcome r)
    else notFoundOutcome r
  else
    if r.base.cfg.HandleMethodNotAllowed then
      (if Router.allowed r req.path req.method ≠ "" then
        .methodNotAllowed (Router.allowed r req.path req.method) r.base.cfg.MethodNotAllowed
      else notFoundOutcome r)
    else notFoundOutcome r

/-- The status code both redirect branches use (router.go lines 329-334):
permanent 301 for GET, method-preserving temporary 307 for everything
else. -/
def redirectCode (method : String) : Nat :=
  if method ≠ "GET" then 307 else 301

/-- The routing decision of `Router.Handler` (router.go lines 324-408),
before the failure-containment wrapper. -/
def rawDispatch (r : Router) (req : Request) : Outcome :=
  match alGet r.base.trees req.method with
  | some root =>
    match getValue root req.path with
    | (some f, _) => .invoked f
    | (none, tsr) =>
      if req.method ≠ "CONNECT" ∧ req.path ≠ "/" then
        let code := redirectCode req.method
        if tsr ∧ r.base.cfg.RedirectTrailingSlash then
          .redirect (tsrTarget req.path ++ querySuffix req.query) code
        else if r.base.cfg.RedirectFixedPath then
          match findCaseInsensitivePath root (cleanPath req.path)
              r.base.cfg.RedirectTrailingSlash with
          | some fixed => .redirect (fixed ++ querySuffix req.query) code
          | none => fallbackOutcome r req
        else fallbackOutcome r req
      else fallbackOutcome r req
  | none => fallbackOutcome r req

/-- The abrupt-termination signal raised while producing an outcome: the
signal of whichever handler the outcome delegated to, if any. -/
def raisedSignal : Outcome → Option Nat
  | .invoked h => h.panics
  | .methodNotAllowed _ (some h) => h.panics
  | .notFound (some h) => h.panics
  | _ => none

/-- The observable result of one `Router.Handler` call: either a normal
return, carrying the outcome and the list of values the failure handler
was invoked with, or a signal propagating to the caller. -/
inductive DispatchResult where
  | normal (o : Outcome) (failureCalls : List Nat)
  | panicked (v : Nat)
deriving DecidableEq

/-- `Router.Handler` (router.go lines 316-409) with its failure
containment (lines 317-319 and 466-470): when a failure handler is
configured, a signal raised by the invoked handler is recovered and the
failure handler called once with it; otherwise the signal propagates. -/
def Router.Handler (r : Router) (req : Request) : DispatchResult :=
  let o := rawDispatch r req
  match raisedSignal o with
  | none => .normal o []
  | some v =>
    if r.base.cfg.PanicHandler then .normal o [v] else .panicked v

/-- `Router.Lookup` (router.go lines 416-421). -/
def Router.Lookup (r : Router) (method path : String) : Option RequestHandler × Bool :=
  match alGet r.base.trees method with
  | some root => getValue root path
  | none => (none, false)

/-- `Router.List` (router.go lines 424-426). -/
def Router.ListRoutes (r : Router) : List (String × List String) :=
  r.base.registeredPaths

/-
Claim-side characterizations.  These definitions follow the wording of
the specification and of the claims, to be compared with the translated
code above.
-/

/-- The comma-joined rendering of a list of method names, as the spec
describes the `Allow` value. -/
def joinComma : List String → String
  | [] => ""
  | [m] => m
  | m :: n :: rest => m ++ ", " ++ joinComma (n :: rest)

/-- The methods the spec says `allowed` reports for a specific path:
every registered method other than the request method and OPTIONS whose
tree matches the path. -/
def collectAllowed (trees : List (String × RTree)) (path reqMethod : String) :
    List String :=
  trees.filterMap (fun e =>
    if e.1 = reqMethod ∨ e.1 = "OPTIONS" then none
    else if (getValue e.2 path).1.isSome then some e.1 else none)

/-- The methods the spec says `allowed` reports for the server-wide
wildcard: every registered method other than OPTIONS. -/
def collectWild (trees : List (String × RTree)) : List String :=
  trees.filterMap (fun e => if e.1 = "OPTIONS" then none else some e.1)

/-- The registration path the code accumulates along a group chain: each
router on the chain prepends its `beginPath` unless that is the root
default `"/"` (router.go lines 220-222). -/
def chainPath : Router → String → String
  | .mk base none, p => if base.beginPath ≠ "/" then base.beginPath ++ p else p
  | .mk base (some q), p =>
    chainPath q (if base.beginPath ≠ "/" then base.beginPath ++ p else p)

/-- The registration path claim C6 predicts: every group's `beginPath`
concatenated unconditionally onto the given path. -/
def naiveChainPath : Router → String → String
  | .mk _ none, p => p
  | .mk base (some q), p => naiveChainPath q (base.beginPath ++ p)

/-- The trees owned by the grouped (non-root) routers of a chain. -/
def groupTreesList : Router → List (List (String × RTree))
  | .mk _ none => []
  | .mk base (some q) => base.trees :: groupTreesList q

/-- The trees owned by the root of a chain. -/
def rootTrees : Router → List (String × RTree)
  | .mk base none => base.trees
  | .mk _ (some q) => rootTrees q

/-- The registered-path lists owned by the root of a chain. -/
def rootRegisteredPaths : Router → List (String × List String)
  | .mk base none => base.registeredPaths
  | .mk _ (some q) => rootRegisteredPaths q

/-- The routes a root insertion appends to the method's tree (router.go
lines 238-247): the optional-segment expansions, or the pattern itself
when there are none. -/
def insertedRoutes (p : String) (handle : RequestHandler) : RTree :=
  if getOptionalPaths p = [] then [(p, handle)]
  else (getOptionalPaths p).map (fun q => (q, handle))

/-
Helper lemmas.
-/

lemma alGet_alSet_self {α : Type} (l : List (String × α)) (k : String) (v : α) :
    alGet (alSet l k v) k = some v := by
  induction l with
  | nil => simp [alSet, alGet]
  | cons e t ih =>
    obtain ⟨k1, w⟩ := e
    by_cases h : k1 = k <;> simp [alSet, alGet, h, ih]

lemma alGetD_alSet_self {α : Type} (l : List (String × α)) (k : String) (v d : α) :
    alGetD (alSet l k v) k d = v := by
  simp [alGetD, alGet_alSet_self]

lemma mid_append_ne_empty (a m : String) : a ++ ", " ++ m ≠ "" := by
  intro h
  have hd := congrArg String.data h
  simp only [String.data_append] at hd
  simp at hd

lemma isRedirect_fallbackOutcome (r : Router) (req : Request) :
    isRedirect (fallbackOutcome r req) = false := by
  unfold fallbackOutcome notFoundOutcome
  split
  · split
    · split <;> rfl
    · rfl
  · split
    · split <;> rfl
    · rfl

/-- C10: `Handle` on the empty path aborts with the out-of-bounds index
failure (the guard itself evaluates `path[0]`), not with the descriptive
missing-leading-slash abort, and leaves the router chain untouched. -/
theorem empty_path_indexes_out_of_bounds (r : Router) (method : String)
    (handle : RequestHandler) :
    Router.Handle r method "" handle = (some .indexOutOfRange, r) := by
  cases r with
  | mk base parent => simp [Router.Handle]

/-- C8: a `Handle` call whose path does not start with a separator (its
first character, `'A'` by convention for the empty string, is not `'/'`)
aborts and leaves every field of the router chain unchanged. -/
theorem bad_path_aborts_without_mutation (r : Router) (method path : String)
    (handle : RequestHandler) (h : firstChar path ≠ '/') :
    (Router.Handle r method path handle).1.isSome = true
    ∧ (Router.Handle r method path handle).2 = r := by
  cases r with
  | mk base parent =>
    by_cases he : path = ""
    · simp [Router.Handle, he]
    · simp [Router.Handle, he, h]

theorem bad_path_abort_witness :
    (Router.Handle Router.new "GET" "nope" ⟨0, none⟩).1.isSome = true
    ∧ (Router.Handle Router.new "GET" "nope" ⟨0, none⟩).2 = Router.new :=
  bad_path_aborts_without_mutation Router.new "GET" "nope" ⟨0, none⟩ (by decide)

/-- C3: when the matched handler raises an abrupt termination signal, a
configured failure handler is invoked exactly once with the captured value
and the dispatch call returns normally; without one, the signal propagates
out of the dispatch call. -/
theorem panic_handler_containment (r : Router) (req : Request)
    (f : RequestHandler) (v : Nat)
    (hf : rawDispatch r req = .invoked f) (hp : f.panics = some v) :
    (r.base.cfg.PanicHandler = true →
      Router.Handler r req = .normal (.invoked f) [v])
    ∧ (r.base.cfg.PanicHandler = false →
      Router.Handler r req = .panicked v) := by
  unfold Router.Handler
  rw [hf]
  simp only [raisedSignal, hp]
  constructor <;> intro h <;> simp [h]

theorem panic_handler_containment_witness :
    Router.Handler
      (.mk { beginPath := "/", trees := [("GET", [("/p", ⟨7, some 42⟩)])],
             registeredPaths := [("GET", ["/p"])],
             cfg := { RouterCfg.default with PanicHandler := true } } none)
      ⟨"GET", "/p", ""⟩
      = .normal (.invoked ⟨7, some 42⟩) [42] :=
  (panic_handler_containment _ ⟨"GET", "/p", ""⟩ ⟨7, some 42⟩ 42
    (by decide) rfl).1 rfl

/-- C7: `Lookup` returns exactly the pair the trie lookup inside dispatch
returns for the request method's tree — the pair `(none, false)` when the
method has no tree — and a `Lookup` hit is exactly the handler dispatch
invokes, with no dispatch policy performed by `Lookup` itself. -/
theorem lookup_refines_dispatch (r : Router) (req : Request) :
    (∀ root, alGet r.base.trees req.method = some root →
      Router.Lookup r req.method req.path = getValue root req.path)
    ∧ (alGet r.base.trees req.method = none →
      Router.Lookup r req.method req.path = (none, false))
    ∧ (∀ f, (Router.Lookup r req.method req.path).1 = some f →
      rawDispatch r req = .invoked f) := by
  refine ⟨?_, ?_, ?_⟩
  · intro root hroot
    simp [Router.Lookup, hroot]
  · intro hnone
    simp [Router.Lookup, hnone]
  · intro f hf
    unfold Router.Lookup at hf
    cases halg : alGet r.base.trees req.method with
    | none => rw [halg] at hf; simp at hf
    | some root =>
      rw [halg] at hf
      replace hf : (getValue root req.path).1 = some f := hf
      rcases hgv : getValue root req.path with ⟨g, tsr⟩
      rw [hgv] at hf
      cases g with
      | none => simp at hf
      | some g0 =>
        have hg : g0 = f := by simpa using hf
        subst hg
        simp [rawDispatch, halg, hgv]

theorem lookup_refines_dispatch_witness :
    rawDispatch
      (.mk { beginPath := "/", trees := [("GET", [("/a", ⟨3, none⟩)])],
             registeredPaths := [("GET", ["/a"])], cfg := .default } none)
      ⟨"GET", "/a", ""⟩
      = .invoked ⟨3, none⟩ :=
  (lookup_refines_dispatch _ ⟨"GET", "/a", ""⟩).2.2 ⟨3, none⟩ (by decide)

/-- C4: a request with method CONNECT or with path `/` never produces a
redirect outcome (neither the trailing-slash nor the fixed-path case); it
is served by exact match or by one of the non-redirect fallbacks. -/
theorem connect_or_root_never_redirects (r : Router) (req : Request)
    (h : req.method = "CONNECT" ∨ req.path = "/") :
    isRedirect (rawDispatch r req) = false := by
  have hcond : ¬(req.method ≠ "CONNECT" ∧ req.path ≠ "/") := by
    rcases h with h | h <;> simp [h]
  cases halg : alGet r.base.trees req.method with
  | none => simp [rawDispatch, halg, isRedirect_fallbackOutcome]
  | some root =>
    rcases hgv : getValue root req.path with ⟨g, tsr⟩
    cases g with
    | some g0 => simp [rawDispatch, halg, hgv, isRedirect]
    | none => simp [rawDispatch, halg, hgv, hcond, isRedirect_fallbackOutcome]

theorem connect_never_redirects_witness :
    isRedirect (rawDispatch
      (.mk { beginPath := "/", trees := [("CONNECT", [("/foo", ⟨0, none⟩)])],
             registeredPaths := [("CONNECT", ["/foo"])], cfg := .default } none)
      ⟨"CONNECT", "/foo/", ""⟩) = false :=
  connect_or_root_never_redirects _ ⟨"CONNECT", "/foo/", ""⟩ (Or.inl rfl)

/-- C1 (amended): every redirect dispatch produces — whether by the
trailing-slash or the fixed-path branch — carries status 301 exactly when
the request method is GET, and 307 for every other method, HEAD included. -/
theorem redirect_code_is_301_iff_get (r : Router) (req : Request)
    (loc : String) (code : Nat)
    (h : rawDispatch r req = .redirect loc code) :
    code = if req.method = "GET" then 301 else 307 := by
  have hfb : ∀ loc1 code1, fallbackOutcome r req ≠ Outcome.redirect loc1 code1 := by
    intro loc1 code1 heq
    have := isRedirect_fallbackOutcome r req
    rw [heq] at this
    simp [isRedirect] at this
  have hrc : redirectCode req.method = if req.method = "GET" then 301 else 307 := by
    by_cases hg : req.method = "GET" <;> simp [redirectCode, hg]
  cases halg : alGet r.base.trees req.method with
  | none =>
    have hd : rawDispatch r req = fallbackOutcome r req := by
      simp [rawDispatch, halg]
    rw [hd] at h
    exact absurd h (hfb loc code)
  | some root =>
    rcases hgv : getValue root req.path with ⟨g, tsr⟩
    cases g with
    | some g0 =>
      have hd : rawDispatch r req = .invoked g0 := by
        simp [rawDispatch, halg, hgv]
      rw [hd] at h
      simp at h
    | none =>
      by_cases hc : req.method ≠ "CONNECT" ∧ req.path ≠ "/"
      · by_cases ht : tsr = true ∧ r.base.cfg.RedirectTrailingSlash = true
        · have hd : rawDispatch r req =
              .redirect (tsrTarget req.path ++ querySuffix req.query)
                (redirectCode req.method) := by
            simp [rawDispatch, halg, hgv, hc.1, hc.2, ht.1, ht.2]
          rw [hd] at h
          injection h with h1 h2
          rw [← h2, hrc]
        · by_cases hfix : r.base.cfg.RedirectFixedPath = true
          · cases hci : findCaseInsensitivePath root (cleanPath req.path)
                r.base.cfg.RedirectTrailingSlash with
            | none =>
              have hd : rawDispatch r req = fallbackOutcome r req := by
                simp [rawDispatch, halg, hgv, hc.1, hc.2, ht, hfix, hci]
              rw [hd] at h
              exact absurd h (hfb loc code)
            | some fixed =>
              have hd : rawDispatch r req =
                  .redirect (fixed ++ querySuffix req.query)
                    (redirectCode req.method) := by
                simp [rawDispatch, halg, hgv, hc.1, hc.2, ht, hfix, hci]
              rw [hd] at h
              injection h with h1 h2
              rw [← h2, hrc]
          · have hd : rawDispatch r req = fallbackOutcome r req := by
              simp [rawDispatch, halg, hgv, hc.1, hc.2, ht, hfix]
            rw [hd] at h
            exact absurd h (hfb loc code)
      · have hd : rawDispatch r req = fallbackOutcome r req := by
          simp [rawDispatch, halg, hgv, hc]
        rw [hd] at h
        exact absurd h (hfb loc code)

/-- C1 counterexample: HEAD is a safe/idempotent method, yet the
trailing-slash redirect the code produces for it carries status 307, not
the 301 the claim asserts for safe/idempotent methods. -/
theorem head_redirect_gets_307 :
    rawDispatch
      (.mk { beginPath := "/", trees := [("HEAD", [("/foo", ⟨0, none⟩)])],
             registeredPaths := [("HEAD", ["/foo"])], cfg := .default } none)
      ⟨"HEAD", "/foo/", ""⟩
      = .redirect "/foo" 307
    ∧ (307 : Nat) ≠ 301 := by
  constructor
  · decide
  · decide

/-- A router with only `POST /foo` registered, used by the C1 witness. -/
def postFooRouter : Router :=
  .mk { beginPath := "/", trees := [("POST", [("/foo", ⟨0, none⟩)])],
        registeredPaths := [("POST", ["/foo"])], cfg := .default } none

theorem redirect_code_witness :
    rawDispatch postFooRouter ⟨"POST", "/foo/", ""⟩ = .redirect "/foo" 307
    ∧ (307 : Nat) = (if ("POST" : String) = "GET" then 301 else 307) :=
  ⟨by decide,
    redirect_code_is_301_iff_get postFooRouter ⟨"POST", "/foo/", ""⟩ "/foo" 307
      (by decide)⟩

/-- C9 (amended): serving any request against a router with no route
registered at all produces the Not Found outcome — the configured
not-found handler when present, a synthesized 404 response otherwise. -/
theorem empty_router_yields_not_found (r : Router) (req : Request)
    (h : r.base.trees = []) :
    rawDispatch r req = .notFound r.base.cfg.NotFound
    ∧ (r.base.cfg.NotFound = none →
      synthesizedStatus (rawDispatch r req) = some 404) := by
  have hallow : Router.allowed r req.path req.method = "" := by
    unfold Router.allowed
    rw [h]
    split <;> simp
  have hfb : fallbackOutcome r req = .notFound r.base.cfg.NotFound := by
    unfold fallbackOutcome notFoundOutcome
    rw [hallow]
    split
    · split <;> simp
    · split <;> simp
  have halg : alGet r.base.trees req.method = none := by
    rw [h]; rfl
  have hd : rawDispatch r req = .notFound r.base.cfg.NotFound := by
    simp [rawDispatch, halg, hfb]
  refine ⟨hd, fun hn => ?_⟩
  rw [hd, hn]
  rfl

theorem empty_router_not_found_witness :
    rawDispatch Router.new ⟨"GET", "/anything", ""⟩ = .notFound none
    ∧ synthesizedStatus (rawDispatch Router.new ⟨"GET", "/anything", ""⟩)
        = some 404 := by
  have h := empty_router_yields_not_found Router.new ⟨"GET", "/anything", ""⟩ rfl
  exact ⟨h.1, h.2 rfl⟩

/-- C9 counterexample: with `/foo` registered for GET and trailing-slash
redirection enabled, serving `GET /foo/` — a path no registered route
matches — produces a 301 redirect, not the Not Found outcome the claim
asserts. -/
theorem unmatched_path_redirects_not_404 :
    (getValue [("/foo", (⟨0, none⟩ : RequestHandler))] "/foo/").1 = none
    ∧ rawDispatch
        (.mk { beginPath := "/", trees := [("GET", [("/foo", ⟨0, none⟩)])],
               registeredPaths := [("GET", ["/foo"])], cfg := .default } none)
        ⟨"GET", "/foo/", ""⟩
        = .redirect "/foo" 301
    ∧ Outcome.redirect "/foo" 301 ≠ .notFound none := by
  refine ⟨by decide, by decide, by decide⟩

/-- C2 (amended): a valid `Handle` call on the root router appends exactly
one entry — the given pattern, unexpanded — to `registeredPaths[method]`,
regardless of optional segments; the optional expansions (`k+1` of them
when the pattern has `k ≥ 1` trailing optional segments, the pattern alone
otherwise) are what the method's tree receives. -/
theorem handle_appends_one_registered_path (base : RouterBase)
    (method path : String) (handle : RequestHandler)
    (hb : base.beginPath = "/") (h0 : path ≠ "") (h1 : firstChar path = '/') :
    (Router.Handle (.mk base none) method path handle).1 = none
    ∧ alGetD (Router.Handle (.mk base none) method path handle).2.registeredPaths
        method []
        = alGetD base.registeredPaths method [] ++ [path]
    ∧ alGetD (Router.Handle (.mk base none) method path handle).2.trees method []
        = alGetD base.trees method [] ++ insertedRoutes path handle
    ∧ (trailingOptionalCount path ≠ 0 →
        (getOptionalPaths path).length = trailingOptionalCount path + 1) := by
  have hguard : ¬(firstChar path ≠ '/') := by simp [h1]
  refine ⟨?_, ?_, ?_, ?_⟩
  · simp [Router.Handle, h0, hguard, hb]
  · simp [Router.Handle, h0, hguard, hb, Router.registeredPaths, Router.base,
      alGetD_alSet_self]
  · simp only [Router.Handle, h0, hguard, hb, Router.trees, Router.base,
      alGetD_alSet_self, insertedRoutes, if_false, ite_not]
    simp [Router.Handle, h0, hguard, hb, Router.trees, Router.base,
      alGetD_alSet_self, insertedRoutes]
    split <;> rfl
  · intro hk
    simp [getOptionalPaths, hk]

theorem handle_append_witness :
    (Router.Handle Router.new "GET" "/users/:id" ⟨5, none⟩).1 = none
    ∧ alGetD (Router.Handle Router.new "GET" "/users/:id" ⟨5, none⟩).2.registeredPaths
        "GET" []
        = alGetD (Router.base Router.new).registeredPaths "GET" [] ++ ["/users/:id"]
    ∧ alGetD (Router.Handle Router.new "GET" "/users/:id" ⟨5, none⟩).2.trees "GET" []
        = alGetD (Router.base Router.new).trees "GET" []
          ++ insertedRoutes "/users/:id" ⟨5, none⟩
    ∧ (trailingOptionalCount "/users/:id" ≠ 0 →
        (getOptionalPaths "/users/:id").length
          = trailingOptionalCount "/users/:id" + 1) :=
  handle_appends_one_registered_path
    (Router.base Router.new) "GET" "/users/:id" ⟨5, none⟩ rfl (by decide) (by decide)

/-- C2 counterexample: the pattern `/a/:b?` has one trailing optional
segment, so the claim predicts two entries appended to
`registeredPaths["GET"]`; the code appends exactly one — the unexpanded
pattern itself. -/
theorem optional_pattern_registers_single_path :
    trailingOptionalCount "/a/:b?" = 1
    ∧ getOptionalPaths "/a/:b?" = ["/a/:b", "/a"]
    ∧ (Router.Handle Router.new "GET" "/a/:b?" ⟨0, none⟩).2.registeredPaths
        = [("GET", ["/a/:b?"])]
    ∧ (alGetD (Router.Handle Router.new "GET" "/a/:b?" ⟨0, none⟩).2.registeredPaths
        "GET" []).length ≠ trailingOptionalCount "/a/:b?" + 1 := by
  refine ⟨by decide, by decide, by decide, by decide⟩

/-- Number of parents above a router: 0 for a root. -/
def routerDepth : Router → Nat
  | .mk _ none => 0
  | .mk _ (some q) => routerDepth q + 1

lemma handle_chain_aux (n : Nat) :
    ∀ (r : Router) (method path : String) (handle : RequestHandler),
      routerDepth r = n →
      (Router.Handle r method path handle).1 = none →
      groupTreesList (Router.Handle r method path handle).2 = groupTreesList r
      ∧ rootTrees (Router.Handle r method path handle).2
          = alSet (rootTrees r) method
              (alGetD (rootTrees r) method []
                ++ insertedRoutes (chainPath r path) handle) := by
  induction n with
  | zero =>
    intro r method path handle hd hok
    obtain ⟨base, parent⟩ := r
    cases parent with
    | some q => simp [routerDepth] at hd
    | none =>
      by_cases h0 : path = ""
      · exfalso; simp [Router.Handle, h0] at hok
      · by_cases h1 : firstChar path ≠ '/'
        · exfalso; simp [Router.Handle, h0, h1] at hok
        · constructor
          · simp [Router.Handle, h0, h1, groupTreesList]
          · simp [Router.Handle, h0, h1, rootTrees, chainPath, insertedRoutes]
            split <;> split <;> rfl
  | succ n ih =>
    intro r method path handle hd hok
    obtain ⟨base, parent⟩ := r
    cases parent with
    | none => simp [routerDepth] at hd
    | some q =>
      have hdq : routerDepth q = n := by
        simpa [routerDepth] using hd
      by_cases h0 : path = ""
      · exfalso; simp [Router.Handle, h0] at hok
      · by_cases h1 : firstChar path ≠ '/'
        · exfalso; simp [Router.Handle, h0, h1] at hok
        · have hok1 : (Router.Handle q method
              (if base.beginPath ≠ "/" then base.beginPath ++ path else path)
              handle).1 = none := by
            simpa [Router.Handle, h0, h1] using hok
          obtain ⟨ihg, ihr⟩ := ih q method
            (if base.beginPath ≠ "/" then base.beginPath ++ path else path)
            handle hdq hok1
          simp only [ne_eq, ite_not] at ihg ihr
          constructor
          · simp [Router.Handle, h0, h1, groupTreesList, ihg]
          · simp [Router.Handle, h0, h1, rootTrees, chainPath, ihr]

/-- C6 (amended): a successful registration on a (possibly grouped) router
leaves every group's trees untouched and inserts into the root's tree for
the method, at the path obtained by concatenating each chain member's
`beginPath` onto the given path — except that a `beginPath` equal to the
root default `"/"` contributes no prefix. -/
theorem group_chain_forwards_to_root (r : Router) (method path : String)
    (handle : RequestHandler)
    (hok : (Router.Handle r method path handle).1 = none) :
    groupTreesList (Router.Handle r method path handle).2 = groupTreesList r
    ∧ rootTrees (Router.Handle r method path handle).2
        = alSet (rootTrees r) method
            (alGetD (rootTrees r) method []
              ++ insertedRoutes (chainPath r path) handle) :=
  handle_chain_aux (routerDepth r) r method path handle rfl hok

/-- The two-level group chain used by the C6 witness. -/
def apiV1Group : Router := Router.Group (Router.Group Router.new "/api") "/v1"

theorem group_chain_witness :
    groupTreesList (Router.Handle apiV1Group "GET" "/users" ⟨9, none⟩).2
      = groupTreesList apiV1Group
    ∧ rootTrees (Router.Handle apiV1Group "GET" "/users" ⟨9, none⟩).2
        = alSet (rootTrees apiV1Group) "GET"
            (alGetD (rootTrees apiV1Group) "GET" []
              ++ insertedRoutes (chainPath apiV1Group "/users") ⟨9, none⟩) :=
  group_chain_forwards_to_root apiV1Group "GET" "/users" ⟨9, none⟩ (by decide)

/-- C6 counterexample: a group created with prefix `/` does not have its
`beginPath` concatenated — the claim's unconditional concatenation would
register `//x`, but the root's tree receives `/x`. -/
theorem root_slash_group_not_concatenated :
    (Router.Handle (Router.Group Router.new "/") "GET" "/x" ⟨0, none⟩).1 = none
    ∧ rootTrees (Router.Handle (Router.Group Router.new "/") "GET" "/x" ⟨0, none⟩).2
        = [("GET", [("/x", ⟨0, none⟩)])]
    ∧ naiveChainPath (Router.Group Router.new "/") "/x" = "//x"
    ∧ ("//x" : String) ≠ "/x" := by
  refine ⟨by decide, by decide, by decide, by decide⟩

lemma joinComma_cons_cons (a m : String) (t : List String) :
    joinComma ((a ++ ", " ++ m) :: t) = a ++ ", " ++ joinComma (m :: t) := by
  cases t with
  | nil => simp [joinComma]
  | cons u v => simp [joinComma, String.append_assoc]

lemma joinStep_foldl (ms : List String) :
    ∀ a : String, a ≠ "" → ms.foldl joinStep a = joinComma (a :: ms) := by
  induction ms with
  | nil => intro a ha; simp [joinComma]
  | cons m t ih =>
    intro a ha
    rw [List.foldl_cons]
    have hstep : joinStep a m = a ++ ", " ++ m := by simp [joinStep, ha]
    rw [hstep, ih _ (mid_append_ne_empty a m), joinComma_cons_cons]
    rfl

lemma joinComma_ne_empty (m : String) (t : List String) (hm : m ≠ "") :
    joinComma (m :: t) ≠ "" := by
  cases t with
  | nil => simpa [joinComma] using hm
  | cons u v => exact mid_append_ne_empty m (joinComma (u :: v))

lemma foldl_allowedStep_eq (path reqMethod : String) :
    ∀ (trees : List (String × RTree)) (a : String),
      trees.foldl (allowedStep reqMethod path) a
        = (collectAllowed trees path reqMethod).foldl joinStep a := by
  intro trees
  induction trees with
  | nil => intro a; rfl
  | cons e t ih =>
    intro a
    by_cases h1 : e.1 = reqMethod ∨ e.1 = "OPTIONS"
    · simp [allowedStep, collectAllowed, h1, ih]
    · by_cases h2 : (getValue e.2 path).1.isSome
      · simp [allowedStep, collectAllowed, h1, h2, ih]
      · simp [allowedStep, collectAllowed, h1, h2, ih]

lemma foldl_allowedWildStep_eq :
    ∀ (trees : List (String × RTree)) (a : String),
      trees.foldl allowedWildStep a = (collectWild trees).foldl joinStep a := by
  intro trees
  induction trees with
  | nil => intro a; rfl
  | cons e t ih =>
    intro a
    by_cases h1 : e.1 = "OPTIONS"
    · simp [allowedWildStep, collectWild, h1, ih]
    · simp [allowedWildStep, collectWild, h1, ih]

lemma collectAllowed_ne_empty (trees : List (String × RTree))
    (path reqMethod : String) (hne : ∀ e ∈ trees, e.1 ≠ "") :
    ∀ x ∈ collectAllowed trees path reqMethod, x ≠ "" := by
  intro x hx
  simp only [collectAllowed, List.mem_filterMap] at hx
  obtain ⟨e, hmem, heq⟩ := hx
  by_cases h1 : e.1 = reqMethod ∨ e.1 = "OPTIONS"
  · simp [h1] at heq
  · by_cases h2 : (getValue e.2 path).1.isSome
    · simp [h1, h2] at heq
      exact heq ▸ hne e hmem
    · simp [h1, h2] at heq

lemma collectWild_ne_empty (trees : List (String × RTree))
    (hne : ∀ e ∈ trees, e.1 ≠ "") :
    ∀ x ∈ collectWild trees, x ≠ "" := by
  intro x hx
  simp only [collectWild, List.mem_filterMap] at hx
  obtain ⟨e, hmem, heq⟩ := hx
  by_cases h1 : e.1 = "OPTIONS"
  · simp [h1] at heq
  · simp [h1] at heq
    exact heq ▸ hne e hmem

/-- C5 (amended): for every path other than the server-wide wildcard
targets `*` and `/*`, `allowed` probes every registered method's tree
except the request method and OPTIONS, lists exactly the methods whose
tree matches the path, and appends OPTIONS iff the list is non-empty; for
the wildcard targets `*` and `/*` it lists every registered method except
OPTIONS unconditionally (again with OPTIONS appended iff non-empty).
Registered method names are assumed non-empty, as any HTTP method is. -/
theorem allowed_methods_characterized (r : Router) (path reqMethod : String)
    (hne : ∀ e ∈ r.base.trees, e.1 ≠ "") :
    (path ≠ "*" → path ≠ "/*" →
      Router.allowed r path reqMethod =
        (if collectAllowed r.base.trees path reqMethod = [] then ""
         else joinComma (collectAllowed r.base.trees path reqMethod) ++ ", OPTIONS"))
    ∧ Router.allowed r "*" reqMethod =
        (if collectWild r.base.trees = [] then ""
         else joinComma (collectWild r.base.trees) ++ ", OPTIONS")
    ∧ Router.allowed r "/*" reqMethod =
        (if collectWild r.base.trees = [] then ""
         else joinComma (collectWild r.base.trees) ++ ", OPTIONS") := by
  have hwild : ∀ p : String, p = "*" ∨ p = "/*" →
      Router.allowed r p reqMethod =
        (if collectWild r.base.trees = [] then ""
         else joinComma (collectWild r.base.trees) ++ ", OPTIONS") := by
    intro p hp
    unfold Router.allowed
    rw [if_pos hp, foldl_allowedWildStep_eq]
    cases hc : collectWild r.base.trees with
    | nil => simp
    | cons m t =>
      have hm : m ≠ "" := by
        refine collectWild_ne_empty r.base.trees hne m ?_
        rw [hc]; exact List.mem_cons_self m t
      rw [List.foldl_cons]
      have h0 : joinStep "" m = m := by simp [joinStep]
      rw [h0, joinStep_foldl t m hm]
      have hjne := joinComma_ne_empty m t hm
      simp [hjne]
  refine ⟨?_, hwild "*" (Or.inl rfl), hwild "/*" (Or.inr rfl)⟩
  intro hs1 hs2
  have hw : ¬(path = "*" ∨ path = "/*") := by simp [hs1, hs2]
  unfold Router.allowed
  rw [if_neg hw, foldl_allowedStep_eq]
  cases hc : collectAllowed r.base.trees path reqMethod with
  | nil => simp
  | cons m t =>
    have hm : m ≠ "" := by
      refine collectAllowed_ne_empty r.base.trees path reqMethod hne m ?_
      rw [hc]; exact List.mem_cons_self m t
    rw [List.foldl_cons]
    have h0 : joinStep "" m = m := by simp [joinStep]
    rw [h0, joinStep_foldl t m hm]
    have hjne := joinComma_ne_empty m t hm
    simp [hjne]

/-- The router with `GET /x` and `POST /y` used by the C5 witness. -/
def twoMethodRouter : Router :=
  .mk { beginPath := "/",
        trees := [("GET", [("/x", ⟨1, none⟩)]), ("POST", [("/y", ⟨2, none⟩)])],
        registeredPaths := [("GET", ["/x"]), ("POST", ["/y"])],
        cfg := .default } none

theorem allowed_methods_witness :
    Router.allowed twoMethodRouter "/x" "POST" =
      (if collectAllowed (Router.base twoMethodRouter).trees "/x" "POST" = [] then ""
       else joinComma (collectAllowed (Router.base twoMethodRouter).trees "/x" "POST")
         ++ ", OPTIONS")
    ∧ Router.allowed twoMethodRouter "/x" "POST" = "GET, OPTIONS" :=
  ⟨(allowed_methods_characterized twoMethodRouter "/x" "POST"
      (by decide)).1 (by decide) (by decide),
    by decide⟩

/-- C5 counterexample: the code also treats `/*` — not just `*` — as the
server-wide wildcard.  With only `GET /foo` registered, probing the trees
at path `/*` finds no match, so the claim predicts the empty result for
this non-`*` path; the code returns `GET, OPTIONS` unconditionally. -/
theorem slash_star_wildcard_not_probed :
    Router.allowed
      (.mk { beginPath := "/", trees := [("GET", [("/foo", ⟨0, none⟩)])],
             registeredPaths := [("GET", ["/foo"])], cfg := .default } none)
      "/*" "POST" = "GET, OPTIONS"
    ∧ collectAllowed [("GET", [("/foo", (⟨0, none⟩ : RequestHandler))])] "/*" "POST"
        = []
    ∧ ("GET, OPTIONS" : String) ≠ "" := by
  refine ⟨by decide, by decide, by decide⟩
